import Mathlib

/-!
Shallow embedding of the order ledger, pricing engine, page-range parser and
phone normalizer of the print-service repository (`src/app.py`; the cake
variant `src/CakeApp/app.py` contains verbatim copies of the repository
functions `get_all_orders`, `save_order`, `update_status`,
`get_orders_by_phone`).

Conventions of the embedding:
* Python strings are Lean `String`s; the parsing helpers work on `List Char`
  (the `data` of a string) so that everything reduces structurally in the
  kernel.
* Python `float` amounts are modelled as `ℚ` (all amounts produced by the
  code are small integer-valued quantities, exact in binary floating point).
* The pandas DataFrame read back from the Google-Sheets store is modelled at
  two levels: `RawDF` (columns plus loosely-typed cells, the direct result of
  `conn.read`) for `get_all_orders`, and `List Order` (the well-typed rows
  the repository operations manipulate once the read has succeeded).
* Writing the whole table back to the store is modelled by returning the new
  table; a `Bool` component records whether `conn.update` was called.
-/

/-- The ASCII whitespace characters stripped by Python `str.strip()`
(space, tab, newline, carriage return, vertical tab, form feed).
Unicode whitespace is outside the model. -/
def pyIsSpace (c : Char) : Bool :=
  c.toNat = 32 || c.toNat = 9 || c.toNat = 10 || c.toNat = 13 || c.toNat = 11 || c.toNat = 12

/-- Python `str.strip()` on a character list: drop whitespace from both
ends. -/
def pyStripL (l : List Char) : List Char :=
  ((l.dropWhile pyIsSpace).reverse.dropWhile pyIsSpace).reverse

/-- Python `str.split(sep)` for a single-character separator: `[]` never
occurs in the result of the recursion, the empty string splits to `[""]`,
and separators at the ends produce empty fields, exactly as in Python. -/
def splitChar (sep : Char) : List Char → List (List Char)
  | [] => [[]]
  | c :: cs =>
    match splitChar sep cs with
    | [] => [[]]
    | h :: t => if c = sep then [] :: h :: t else (c :: h) :: t

/-- Validity of the digit part of a Python integer literal: nonempty, made
of decimal digits and underscores, with every underscore standing between
two digits (so no leading/trailing/doubled underscores), as accepted by
Python `int()`. -/
def pyDigitsValid (l : List Char) : Bool :=
  !l.isEmpty
    && l.all (fun c => c.isDigit || c = '_')
    && (match l.head? with | some c => c.isDigit | none => false)
    && (match l.getLast? with | some c => c.isDigit | none => false)
    && (l.zip l.tail).all (fun p => !(p.1 = '_' && p.2 = '_'))

/-- Numeric value of a valid digit/underscore sequence. -/
def digitsVal (l : List Char) : ℕ :=
  l.foldl (fun n c => if c = '_' then n else n * 10 + (c.toNat - 48)) 0

/-- Model of Python `int(s)` on a character list: strip whitespace, allow a
single leading sign, then a digit sequence with optional underscore
separators; `none` models the `ValueError` raised on anything else.
(Non-ASCII digits are outside the model.) -/
def pyIntL (l : List Char) : Option ℤ :=
  match pyStripL l with
  | '+' :: rest => if pyDigitsValid rest then some (digitsVal rest) else none
  | '-' :: rest => if pyDigitsValid rest then some (-(digitsVal rest : ℤ)) else none
  | t => if pyDigitsValid t then some (digitsVal t) else none

/-! ### PriceEngine: `calculate_price` (src/app.py lines 475-495) -/

/-- Model of `calculate_price(pages, color_mode, paper_type, mixed_color_pages=0)`:
Glossy paper overrides everything at 20/page; otherwise Full Color is
10/page, Mixed clamps the color-page count to the total and charges
10/color page plus 2/B&W page, and anything else is Black & White at
2/page. -/
def calculate_price (pages : ℕ) (color_mode paper_type : String)
    (mixed_color_pages : ℕ) : ℚ :=
  if paper_type = "Glossy" then (pages : ℚ) * 20
  else if color_mode = "Full Color" then (pages : ℚ) * 10
  else if color_mode = "Mixed (B&W + Color)" then
    let m := if mixed_color_pages > pages then pages else mixed_color_pages
    (m : ℚ) * 10 + ((pages - m : ℕ) : ℚ) * 2
  else (pages : ℚ) * 2

/-! ### PageRangeParser: `parse_page_range` (src/app.py lines 450-473) -/

/-- The per-token action of `parse_page_range` on the accumulated page set:
a stripped token containing a dash is treated as a range (`start-end` with
both endpoints parsing as Python ints adds `range(start, end+1)`, any other
shape is skipped via the caught `ValueError`); a token without a dash is a
single page number if it parses, and skipped otherwise. -/
def parseRangeStep (acc : Finset ℤ) (part : List Char) : Finset ℤ :=
  let p := pyStripL part
  if p.contains '-' then
    match splitChar '-' p with
    | [a, b] =>
      match pyIntL a, pyIntL b with
      | some s, some e => acc ∪ Finset.Icc s e
      | _, _ => acc
    | _ => acc
  else
    match pyIntL p with
    | some n => insert n acc
    | none => acc

/-- Model of `parse_page_range(range_string)`: empty (falsy) input yields 0;
otherwise split on commas, accumulate the referenced pages into a set, and
return its size. -/
def parse_page_range (range_string : String) : ℕ :=
  if range_string = "" then 0
  else ((splitChar ',' range_string.data).foldl parseRangeStep ∅).card

/-- Modelled from the claim wording for C5: the set of page numbers
referenced by one (possibly malformed) token — an inclusive `start-end`
range when the token contains a dash, a single page number otherwise, and
the empty set for malformed tokens. -/
def tokenPages (part : List Char) : Finset ℤ :=
  let p := pyStripL part
  if p.contains '-' then
    match splitChar '-' p with
    | [a, b] =>
      match pyIntL a, pyIntL b with
      | some s, some e => Finset.Icc s e
      | _, _ => ∅
    | _ => ∅
  else
    match pyIntL p with
    | some n => {n}
    | none => ∅

/-- Modelled from the claim wording for C5: the set union of all page
numbers referenced by the comma-separated tokens of the input. -/
def pageRangeUnion (s : String) : Finset ℤ :=
  ((splitChar ',' s.data).map tokenPages).foldr (· ∪ ·) ∅

/-! ### PhoneNormalizer: `normalize_phone`
(src/app.py lines 145-148, inside `get_orders_by_phone`) -/

/-- Python `s.endswith(".0")`: the final two characters are `'.'` then
`'0'`. -/
def endsWithDotZero (t : List Char) : Bool :=
  match t.reverse with
  | c0 :: c1 :: _ => c0 = '0' && c1 = '.'
  | _ => false

/-- Core of `normalize_phone` on a character list: strip surrounding
whitespace, then remove a trailing `".0"` (`s = s[:-2]`) when present. -/
def normChars (l : List Char) : List Char :=
  let t := pyStripL l
  if endsWithDotZero t then (t.reverse.drop 2).reverse else t

/-- Model of `normalize_phone(p)`: `str(p).strip()`, with a trailing `".0"`
(float-rendering artifact of numeric phone cells) removed. The `str(p)`
cast is the identity here because the model stores phones as strings. -/
def normalize_phone (p : String) : String :=
  ⟨normChars p.data⟩

/-! ### Order rows (the well-typed table the repository operates on)

Columns of the sheet: id, date, name, phone, email, status, payment_status,
amount, details (src/app.py line 62). -/

structure Order where
  id : ℤ
  date : String
  name : String
  phone : String
  email : String
  status : String
  payment_status : String
  amount : ℚ
  details : String
deriving DecidableEq

/-- Maximum existing id of the table (the pandas max of the id column), taken as 0 for the
empty table, matching the id-allocation rule of `save_order`. -/
def tableMaxId (df : List Order) : ℤ :=
  match df with
  | [] => 0
  | r :: rest => rest.foldl (fun m x => max m x.id) r.id

/-- Model of `save_order(name, phone, email, amount, details)` (src/app.py lines
77-120): read the table, allocate `new_id = max + 1` (1 for an empty
table), digit-strip a nonempty (truthy) phone, append the new row with
status "Pending" and payment_status "Unpaid", write the table back, and
return the new id. The current table and the timestamp string are explicit
arguments of the model. -/
def save_order (df : List Order) (name phone email : String) (amount : ℚ)
    (details : String) (date : String) : List Order × ℤ :=
  let new_id : ℤ := if df.isEmpty then 1 else tableMaxId df + 1
  let phone2 : String := if phone = "" then phone else ⟨phone.data.filter Char.isDigit⟩
  let row : Order :=
    ⟨new_id, date, name, phone2, email, "Pending", "Unpaid", amount, details⟩
  (df ++ [row], new_id)

/-- One submission of the order form: the per-call arguments of
`save_order` other than the table. -/
structure Submission where
  name : String
  phone : String
  email : String
  amount : ℚ
  details : String
  date : String

/-- Iterated creation: `n` sequential (non-concurrent) `save_order` calls starting from the
empty table, the `k`-th call taking the fields `args k`. -/
def createSeq (args : ℕ → Submission) : ℕ → List Order
  | 0 => []
  | n + 1 =>
    (save_order (createSeq args n) (args n).name (args n).phone (args n).email
      (args n).amount (args n).details (args n).date).1

/-- The field-level assignment of `update_status` on one row: the masked
rows (those whose id equals order_id) get the new status and payment_status, and
the new amount when one is supplied (`if new_amount is not None`); every
other field, and every unmasked row, is untouched. -/
def editRow (order_id : ℤ) (new_status payment_status : String)
    (new_amount : Option ℚ) (r : Order) : Order :=
  if r.id = order_id then
    { r with status := new_status, payment_status := payment_status,
             amount := new_amount.getD r.amount }
  else r

/-- Model of `update_status(order_id, new_status, payment_status, new_amount)`
(src/app.py lines 122-134): on a nonempty table whose mask
mask (id equals order_id) matches some row, apply `editRow` across the table
and write it back; otherwise do nothing. The `Bool` records whether
`conn.update` was called. -/
def update_status (df : List Order) (order_id : ℤ) (new_status payment_status : String)
    (new_amount : Option ℚ) : List Order × Bool :=
  if df.isEmpty then (df, false)
  else if df.any (fun r => r.id == order_id) then
    (df.map (editRow order_id new_status payment_status new_amount), true)
  else (df, false)

/-- Model of `get_orders_by_phone(phone)` (src/app.py lines 136-158): an empty table
is returned as is; otherwise keep the rows whose `normalize_phone`d stored
phone equals the normalized query, sorted by id descending
(`sort_values` by id, descending). The temporary `phone_clean`
helper column of the pandas code is not part of the row model. -/
def get_orders_by_phone (df : List Order) (phone : String) : List Order :=
  if df.isEmpty then df
  else
    List.insertionSort (fun a b => b.id ≤ a.id)
      (df.filter (fun r => normalize_phone r.phone == normalize_phone phone))

instance : DecidableRel (fun a b : Order => b.id ≤ a.id) :=
  fun a b => Int.decLe b.id a.id

instance : IsTotal Order (fun a b : Order => b.id ≤ a.id) :=
  ⟨fun a b => Int.le_total b.id a.id⟩

instance : IsTrans Order (fun a b : Order => b.id ≤ a.id) :=
  ⟨fun _ _ _ h₁ h₂ => le_trans h₂ h₁⟩

/-! ### The raw read path: `get_all_orders` (src/app.py lines 56-75) -/

/-- A loosely-typed spreadsheet cell as delivered by `conn.read`: a string,
a number, or a missing value (pandas `NaN`). -/
inductive Cell where
  | str (s : String)
  | num (q : ℚ)
  | na
deriving DecidableEq

/-- The raw DataFrame delivered by `conn.read`: column names plus rows of
cells aligned with the columns. -/
structure RawDF where
  cols : List String
  rows : List (List Cell)
deriving DecidableEq

/-- The column structure every read is checked against
(src/app.py line 62). -/
def expected_cols : List String :=
  ["id", "date", "name", "phone", "email", "status", "payment_status", "amount", "details"]

/-- The empty DataFrame with the expected column structure, returned on
every degraded read. -/
def emptyOrdersDF : RawDF := ⟨expected_cols, []⟩

/-- Model of the numeric-string parsing done by `pd.to_numeric`: optional
sign, then digits with an optional fractional part (at least one digit in
total). Exotic numeric spellings (exponents, underscores) are outside the
model; no claim depends on them. -/
def parseDecimal? (l : List Char) : Option ℚ :=
  let t := pyStripL l
  let core : List Char → Option ℚ := fun digitsPart =>
    match splitChar '.' digitsPart with
    | [intPart] =>
      if !intPart.isEmpty && intPart.all Char.isDigit then
        some ((digitsVal intPart : ℤ) : ℚ)
      else none
    | [intPart, fracPart] =>
      if intPart.all Char.isDigit && fracPart.all Char.isDigit
          && !(intPart.isEmpty && fracPart.isEmpty) then
        some ((digitsVal intPart : ℚ) + (digitsVal fracPart : ℚ) / (10 : ℚ) ^ fracPart.length)
      else none
    | _ => none
  match t with
  | '+' :: rest => core rest
  | '-' :: rest => (core rest).map Neg.neg
  | _ => core t

/-- Truncation toward zero, as performed by `.astype(int)` on a float
column. -/
def ratTruncToZero (q : ℚ) : ℤ :=
  if 0 ≤ q then q.floor else q.ceil

/-- Model of `df.fillna("")` on one cell: missing values become the empty string. -/
def fillCell : Cell → Cell
  | .na => .str ""
  | c => c

/-- Model of the id coercion performed by `to_numeric` with coercing errors, then `fillna(0)` and `astype(int)`, on one
cell: numbers pass through, numeric strings parse, everything else
coerces to `NaN` and is then filled with 0; the result is truncated to an
integer. -/
def coerceIdCell (c : Cell) : Cell :=
  let n : Option ℚ :=
    match c with
    | .num q => some q
    | .na => none
    | .str s => parseDecimal? s.data
  match n with
  | some q => .num ((ratTruncToZero q : ℤ) : ℚ)
  | none => .num 0

/-- Model of `get_all_orders()` (src/app.py lines 56-75): a failed `conn.read`
(any raised exception) degrades to the empty expected-column table; so does
a successfully read table that is empty or lacks one of the expected
columns. Otherwise missing values are filled with `""` and the id column is
coerced to integers. -/
def get_all_orders (readResult : Except String RawDF) : RawDF :=
  match readResult with
  | .error _ => emptyOrdersDF
  | .ok df =>
    if df.rows.isEmpty || !(expected_cols.all (fun c => df.cols.contains c)) then
      emptyOrdersDF
    else
      let filled := df.rows.map (fun row => row.map fillCell)
      let idIdx := df.cols.indexOf "id"
      ⟨df.cols, filled.map (fun row => row.set idIdx (coerceIdCell (row.getD idIdx (.str ""))))⟩

/-! ### Helper lemmas -/

lemma dropWhile_eq_self_of {p : Char → Bool} {l : List Char}
    (h : ∀ c ∈ l, p c = false) : l.dropWhile p = l := by
  cases l with
  | nil => rfl
  | cons a as => simp [List.dropWhile_cons, h a (by simp)]

lemma pyStripL_eq_self {l : List Char} (h : ∀ c ∈ l, pyIsSpace c = false) :
    pyStripL l = l := by
  unfold pyStripL
  rw [dropWhile_eq_self_of h,
    dropWhile_eq_self_of (fun c hc => h c (List.mem_reverse.mp hc)),
    List.reverse_reverse]

lemma isDigit_not_pyIsSpace {c : Char} (h : c.isDigit = true) :
    pyIsSpace c = false := by
  simp only [Char.isDigit, ge_iff_le, Bool.and_eq_true, decide_eq_true_eq] at h
  obtain ⟨h1, h2⟩ := h
  have h1n : 48 ≤ c.toNat := h1
  have h2n : c.toNat ≤ 57 := h2
  simp only [pyIsSpace, Bool.or_eq_false_iff, decide_eq_false_iff_not]
  omega

lemma endsWithDotZero_eq_false_of_digits {l : List Char}
    (h : ∀ c ∈ l, c.isDigit = true) : endsWithDotZero l = false := by
  unfold endsWithDotZero
  cases hrev : l.reverse with
  | nil => rfl
  | cons c0 rest =>
    cases rest with
    | nil => rfl
    | cons c1 rest2 =>
      have hc1 : c1 ∈ l := by
        rw [← List.mem_reverse, hrev]; simp
      have : c1 ≠ '.' := by
        intro he
        have := h c1 hc1
        rw [he] at this
        exact absurd this (by decide)
      simp [this]

/-! ### C3 -/

/-- C3: for every page count, color mode and color-page count, Glossy paper
prices at pages × 20 (the glossy rate), overriding every other pricing
rule. -/
theorem calculate_price_glossy_dominates :
    ∀ (pages : ℕ) (color_mode : String) (color_page_count : ℕ),
      calculate_price pages color_mode "Glossy" color_page_count = (pages : ℚ) * 20 := by
  intro pages cm cpc
  unfold calculate_price
  rw [if_pos rfl]

/-! ### C4 -/

/-- C4: with a non-Glossy paper type and Mixed color mode, the price is
c × 10 + (pages − c) × 2 where c clamps the color-page count to the page
count; in particular 12 Mixed Standard pages with 3 color pages cost 48. -/
theorem calculate_price_mixed_clamped :
    (∀ (pages color_page_count : ℕ) (paper_type : String), paper_type ≠ "Glossy" →
        calculate_price pages "Mixed (B&W + Color)" paper_type color_page_count
          = ((min color_page_count pages : ℕ) : ℚ) * 10
            + ((pages - min color_page_count pages : ℕ) : ℚ) * 2)
    ∧ calculate_price 12 "Mixed (B&W + Color)" "Standard" 3 = 48 := by
  constructor
  · intro pages cpc paper h
    unfold calculate_price
    rw [if_neg h, if_neg (by decide), if_pos rfl]
    rcases le_or_lt cpc pages with hc | hc
    · rw [if_neg (by omega), Nat.min_eq_left hc]
    · rw [if_pos hc, Nat.min_eq_right (Nat.le_of_lt hc)]
  · unfold calculate_price
    rw [if_neg (by decide), if_neg (by decide), if_pos rfl]
    norm_num

/-- Witness for C4 at the concrete end-to-end input of the spec. -/
theorem calculate_price_mixed_clamped_witness :
    calculate_price 12 "Mixed (B&W + Color)" "Standard" 3
      = ((min 3 12 : ℕ) : ℚ) * 10 + ((12 - min 3 12 : ℕ) : ℚ) * 2 :=
  calculate_price_mixed_clamped.1 12 3 "Standard" (by decide)

/-! ### C2 -/

/-- C2 (counterexample): the lookup-key normalization does not strip
non-digit characters — `normalize_phone "998-877-7777"` keeps its dashes,
contradicting the claimed value `"9988777777"`. -/
theorem normalize_phone_not_digit_stripping :
    normalize_phone "998-877-7777" ≠ "9988777777" := by decide

/-- C2 (amended): the normalization used as the customer-lookup key strips
surrounding whitespace and truncates a trailing fractional-zero artifact,
but leaves interior non-digit characters intact (a digits-only string is
returned unchanged); `normalize_phone "9988777777.0" = "9988777777"`,
`normalize_phone "998-877-7777" = "998-877-7777"`, and the lookup filters
by equality of these normalized keys. -/
theorem normalize_phone_canonical_key :
    normalize_phone "9988777777.0" = "9988777777"
    ∧ normalize_phone "998-877-7777" = "998-877-7777"
    ∧ (∀ s : String, (∀ c ∈ s.data, c.isDigit = true) → normalize_phone s = s)
    ∧ (∀ (df : List Order) (key : String) (r : Order),
        r ∈ get_orders_by_phone df key → normalize_phone r.phone = normalize_phone key) := by
  refine ⟨by decide, by decide, ?_, ?_⟩
  · intro s h
    have hstrip : pyStripL s.data = s.data :=
      pyStripL_eq_self (fun c hc => isDigit_not_pyIsSpace (h c hc))
    have : normChars s.data = s.data := by
      simp only [normChars]
      rw [hstrip, endsWithDotZero_eq_false_of_digits h]
      simp
    unfold normalize_phone
    rw [this]
  · intro df key r hr
    unfold get_orders_by_phone at hr
    by_cases hdf : df.isEmpty
    · rw [if_pos hdf] at hr
      rw [List.isEmpty_iff.mp hdf] at hr
      simp at hr
    · rw [if_neg hdf] at hr
      have hmem := (List.perm_insertionSort (fun a b : Order => b.id ≤ a.id) _).mem_iff.mp hr
      have := (List.mem_filter.mp hmem).2
      exact eq_of_beq this

/-- Witness for C2: a digits-only key is a fixed point of the
normalization, and a stored row surfaced by the lookup matches the queried
key. -/
theorem normalize_phone_canonical_key_witness :
    normalize_phone "9876543210" = "9876543210"
    ∧ normalize_phone
        (⟨1, "d", "n", "77", "e", "Pending", "Unpaid", 0, "x"⟩ : Order).phone
      = normalize_phone "77" := by
  constructor
  · exact normalize_phone_canonical_key.2.2.1 "9876543210" (by decide)
  · exact normalize_phone_canonical_key.2.2.2
      [⟨1, "d", "n", "77", "e", "Pending", "Unpaid", 0, "x"⟩] "77"
      ⟨1, "d", "n", "77", "e", "Pending", "Unpaid", 0, "x"⟩ (by decide)

/-! ### update_status helpers -/

lemma update_status_fst_eq_map (df : List Order) (order_id : ℤ) (st pay : String)
    (amt : Option ℚ) :
    (update_status df order_id st pay amt).1 = df.map (editRow order_id st pay amt) := by
  unfold update_status
  by_cases h0 : df.isEmpty
  · rw [if_pos h0, List.isEmpty_iff.mp h0]
    rfl
  · rw [if_neg h0]
    by_cases h1 : df.any (fun r => r.id == order_id)
    · rw [if_pos h1]
    · rw [if_neg h1]
      show df = df.map (editRow order_id st pay amt)
      have hall : ∀ r ∈ df, editRow order_id st pay amt r = r := by
        intro r hr
        have hne : ¬ (r.id == order_id) = true := fun hb =>
          h1 (List.any_eq_true.mpr ⟨r, hr, hb⟩)
        unfold editRow
        rw [if_neg (by simpa using hne)]
      calc df = df.map id := (List.map_id df).symm
        _ = df.map (editRow order_id st pay amt) :=
          List.map_congr_left (fun r hr => (hall r hr).symm)

lemma editRow_idem (order_id : ℤ) (st pay : String) (amt : Option ℚ) (r : Order) :
    editRow order_id st pay amt (editRow order_id st pay amt r)
      = editRow order_id st pay amt r := by
  unfold editRow
  by_cases h : r.id = order_id
  · rw [if_pos h, if_pos h]
    cases amt with
    | none => rfl
    | some a => rfl
  · rw [if_neg h, if_neg h]

/-! ### C7 -/

/-- C7: updating an id that no row carries (in particular on the empty
table) performs no write back and leaves the table unchanged, with no error
surfaced. -/
theorem update_status_unknown_id_noop :
    ∀ (df : List Order) (order_id : ℤ) (st pay : String) (amt : Option ℚ),
      (∀ r ∈ df, r.id ≠ order_id) →
      update_status df order_id st pay amt = (df, false) := by
  intro df oid st pay amt h
  unfold update_status
  by_cases h0 : df.isEmpty
  · rw [if_pos h0]
  · rw [if_neg h0, if_neg ?_]
    intro hb
    obtain ⟨r, hr, hbeq⟩ := List.any_eq_true.mp hb
    exact h r hr (by simpa using hbeq)

/-- Witness for C7: a concrete one-row table and an absent id. -/
theorem update_status_unknown_id_noop_witness :
    update_status [⟨1, "d", "n", "p", "e", "Pending", "Unpaid", 0, "x"⟩]
        2 "Printing" "Paid" (some 5)
      = ([⟨1, "d", "n", "p", "e", "Pending", "Unpaid", 0, "x"⟩], false) :=
  update_status_unknown_id_noop _ 2 "Printing" "Paid" (some 5) (by decide)

/-! ### C8 -/

/-- C8: updating the same id twice with the same status, payment status and
amount yields exactly the table state of a single update. -/
theorem update_status_idempotent :
    ∀ (df : List Order) (order_id : ℤ) (st pay : String) (amt : Option ℚ),
      (update_status (update_status df order_id st pay amt).1 order_id st pay amt).1
        = (update_status df order_id st pay amt).1 := by
  intro df oid st pay amt
  rw [update_status_fst_eq_map, update_status_fst_eq_map, List.map_map]
  exact List.map_congr_left (fun r _ => editRow_idem oid st pay amt r)

/-! ### C10 -/

/-- C10: an update rewrites status, payment status (and amount, only when
one is supplied) on every row whose id matches — all of them at once when
duplicate ids exist — and leaves every other row and every other field
(id, date, name, phone, email, details) unchanged; the table length never
changes. -/
theorem update_status_frame :
    (∀ (df : List Order) (order_id : ℤ) (st pay : String) (amt : Option ℚ),
        ((update_status df order_id st pay amt).1).length = df.length)
    ∧ (∀ (df : List Order) (order_id : ℤ) (st pay : String) (amt : Option ℚ) (i : ℕ),
        ((update_status df order_id st pay amt).1)[i]?
          = (df[i]?).map (editRow order_id st pay amt))
    ∧ (∀ (order_id : ℤ) (st pay : String) (amt : Option ℚ) (r : Order),
        r.id ≠ order_id → editRow order_id st pay amt r = r)
    ∧ (∀ (order_id : ℤ) (st pay : String) (amt : Option ℚ) (r : Order),
        r.id = order_id →
          (editRow order_id st pay amt r).id = r.id
          ∧ (editRow order_id st pay amt r).date = r.date
          ∧ (editRow order_id st pay amt r).name = r.name
          ∧ (editRow order_id st pay amt r).phone = r.phone
          ∧ (editRow order_id st pay amt r).email = r.email
          ∧ (editRow order_id st pay amt r).details = r.details
          ∧ (editRow order_id st pay amt r).status = st
          ∧ (editRow order_id st pay amt r).payment_status = pay
          ∧ (editRow order_id st pay amt r).amount = amt.getD r.amount) := by
  refine ⟨?_, ?_, ?_, ?_⟩
  · intro df oid st pay amt
    rw [update_status_fst_eq_map, List.length_map]
  · intro df oid st pay amt i
    rw [update_status_fst_eq_map, List.getElem?_map]
  · intro oid st pay amt r h
    unfold editRow
    rw [if_neg h]
  · intro oid st pay amt r h
    unfold editRow
    rw [if_pos h]
    exact ⟨rfl, rfl, rfl, rfl, rfl, rfl, rfl, rfl, rfl⟩

/-- Witness for C10: the row mutation at a mismatched and at a matched
concrete id. -/
theorem update_status_frame_witness :
    editRow 2 "Printing" "Paid" (some 5)
        (⟨1, "d", "n", "p", "e", "Pending", "Unpaid", 0, "x"⟩ : Order)
      = ⟨1, "d", "n", "p", "e", "Pending", "Unpaid", 0, "x"⟩
    ∧ (editRow 1 "Printing" "Paid" (some 5)
        (⟨1, "d", "n", "p", "e", "Pending", "Unpaid", 0, "x"⟩ : Order)).status
      = "Printing" :=
  ⟨update_status_frame.2.2.1 2 "Printing" "Paid" (some 5) _ (by decide),
   (update_status_frame.2.2.2 1 "Printing" "Paid" (some 5)
      ⟨1, "d", "n", "p", "e", "Pending", "Unpaid", 0, "x"⟩ (by decide)).2.2.2.2.2.2.1⟩

/-! ### C9 -/

/-- C9: the phone lookup returns exactly the rows of the full scan whose
normalized stored phone equals the normalized query key (as a permutation
of that filter), and the returned sequence is sorted by id descending. -/
theorem get_orders_by_phone_filter_sorted :
    ∀ (df : List Order) (phone : String),
      (get_orders_by_phone df phone).Perm
        (df.filter (fun r => normalize_phone r.phone == normalize_phone phone))
      ∧ List.Sorted (fun a b : Order => b.id ≤ a.id) (get_orders_by_phone df phone) := by
  intro df phone
  unfold get_orders_by_phone
  by_cases h0 : df.isEmpty
  · rw [if_pos h0, List.isEmpty_iff.mp h0]
    exact ⟨List.Perm.refl _, List.sorted_nil⟩
  · rw [if_neg h0]
    exact ⟨List.perm_insertionSort _ _, List.sorted_insertionSort _ _⟩

/-! ### C6 -/

/-- C6: a failed backing-store read, an empty table read back, and a table
lacking one of the expected columns all degrade to the empty table with the
expected column structure instead of surfacing an error. -/
theorem get_all_orders_degraded_read :
    (∀ e : String, get_all_orders (.error e) = emptyOrdersDF)
    ∧ (∀ df : RawDF, df.rows = [] → get_all_orders (.ok df) = emptyOrdersDF)
    ∧ (∀ df : RawDF, (∃ c ∈ expected_cols, df.cols.contains c = false) →
        get_all_orders (.ok df) = emptyOrdersDF) := by
  refine ⟨fun e => rfl, ?_, ?_⟩
  · intro df h
    have he : df.rows.isEmpty = true := by rw [h]; rfl
    simp [get_all_orders, he]
  · intro df h
    obtain ⟨c, hc, hnc⟩ := h
    have hall : expected_cols.all (fun c => df.cols.contains c) = false :=
      List.all_eq_false.mpr ⟨c, hc, by rw [hnc]; simp⟩
    have hcond : (df.rows.isEmpty || !(expected_cols.all (fun c => df.cols.contains c)))
        = true := by
      rw [hall]
      simp
    show (if (df.rows.isEmpty || !(expected_cols.all (fun c => df.cols.contains c))) = true
        then emptyOrdersDF
        else
          let filled := df.rows.map (fun row => row.map fillCell)
          let idIdx := df.cols.indexOf "id"
          ⟨df.cols, filled.map
            (fun row => row.set idIdx (coerceIdCell (row.getD idIdx (.str ""))))⟩)
      = emptyOrdersDF
    rw [if_pos hcond]

/-- Witness for C6: an empty read-back and a read-back missing the date
column both degrade to the empty expected-column table. -/
theorem get_all_orders_degraded_read_witness :
    get_all_orders (.ok ⟨expected_cols, []⟩) = emptyOrdersDF
    ∧ get_all_orders (.ok ⟨["id"], [[Cell.str "1"]]⟩) = emptyOrdersDF :=
  ⟨get_all_orders_degraded_read.2.1 _ rfl,
   get_all_orders_degraded_read.2.2 _ ⟨"date", by decide, by decide⟩⟩

/-! ### C5 -/

lemma parseRangeStep_eq_union (acc : Finset ℤ) (part : List Char) :
    parseRangeStep acc part = acc ∪ tokenPages part := by
  simp only [parseRangeStep, tokenPages]
  by_cases h : (pyStripL part).contains '-' = true
  · rw [if_pos h, if_pos h]
    rcases hsp : splitChar '-' (pyStripL part) with _ | ⟨a, tail⟩
    · simp [hsp]
    · rcases tail with _ | ⟨b, tail2⟩
      · simp [hsp]
      · rcases tail2 with _ | ⟨c, tail3⟩
        · rcases hA : pyIntL a with _ | s
          · simp [hsp, hA]
          · rcases hB : pyIntL b with _ | e
            · simp [hsp, hA, hB]
            · simp [hsp, hA, hB]
        · simp [hsp]
  · rw [if_neg h, if_neg h]
    rcases hn : pyIntL (pyStripL part) with _ | n
    · simp [hn]
    · simp [hn, Finset.insert_eq, Finset.union_comm]

lemma foldl_parseRangeStep (toks : List (List Char)) (acc : Finset ℤ) :
    toks.foldl parseRangeStep acc = acc ∪ ((toks.map tokenPages).foldr (· ∪ ·) ∅) := by
  induction toks generalizing acc with
  | nil => simp
  | cons t ts ih =>
    rw [List.foldl_cons, ih, parseRangeStep_eq_union, List.map_cons, List.foldr_cons,
      Finset.union_assoc]

/-- C5 (counterexample): the tokens of "1,3,5-7" reference the five pages
1, 3, 5, 6 and 7, so the parse does not return the claimed count 4. -/
theorem parse_page_range_claimed_count_false :
    parse_page_range "1,3,5-7" ≠ 4 := by decide

/-- C5 (amended): for every input, the parse returns the cardinality of the
set union of the page numbers referenced by the well-formed tokens —
malformed tokens (non-numeric, reversed range) contribute nothing and empty
input yields 0 — so parse "1,3,5-7" = 5 (not 4), parse "2-1" = 0,
parse "" = 0, and parse "1,1,1-2" = 2. -/
theorem parse_page_range_union_card :
    (∀ s : String, parse_page_range s = (pageRangeUnion s).card)
    ∧ parse_page_range "1,3,5-7" = 5
    ∧ parse_page_range "2-1" = 0
    ∧ parse_page_range "" = 0
    ∧ parse_page_range "1,1,1-2" = 2 := by
  refine ⟨?_, by decide, by decide, by decide, by decide⟩
  intro s
  unfold parse_page_range pageRangeUnion
  by_cases hs : s = ""
  · subst hs
    rw [if_pos rfl]
    decide
  · rw [if_neg hs, foldl_parseRangeStep, Finset.empty_union]

/-! ### C1 -/

lemma foldl_max_init_le (l : List Order) :
    ∀ init : ℤ, init ≤ l.foldl (fun m x => max m x.id) init := by
  induction l with
  | nil => intro init; exact le_refl _
  | cons a as ih =>
    intro init
    rw [List.foldl_cons]
    exact le_trans (le_max_left init a.id) (ih (max init a.id))

lemma mem_foldl_max_le (l : List Order) :
    ∀ (init : ℤ) (r : Order), r ∈ l → r.id ≤ l.foldl (fun m x => max m x.id) init := by
  induction l with
  | nil => intro init r hr; simp at hr
  | cons a as ih =>
    intro init r hr
    rw [List.foldl_cons]
    rcases List.mem_cons.mp hr with h | h
    · subst h
      exact le_trans (le_max_right init r.id) (foldl_max_init_le as _)
    · exact ih _ r h

lemma le_tableMaxId {df : List Order} {r : Order} (h : r ∈ df) :
    r.id ≤ tableMaxId df := by
  cases df with
  | nil => simp at h
  | cons a rest =>
    rcases List.mem_cons.mp h with h1 | h1
    · subst h1
      exact foldl_max_init_le rest _
    · exact mem_foldl_max_le rest a.id r h1

lemma tableMaxId_append_singleton (df : List Order) (r : Order) (h : df ≠ []) :
    tableMaxId (df ++ [r]) = max (tableMaxId df) r.id := by
  cases df with
  | nil => exact absurd rfl h
  | cons a rest =>
    show (rest ++ [r]).foldl (fun m x => max m x.id) a.id
      = max (rest.foldl (fun m x => max m x.id) a.id) r.id
    rw [List.foldl_append]
    rfl

lemma save_order_new_id (df : List Order) :
    (if df.isEmpty then (1 : ℤ) else tableMaxId df + 1) = tableMaxId df + 1 := by
  by_cases h : df.isEmpty = true
  · rw [if_pos h, List.isEmpty_iff.mp h]
    rfl
  · rw [if_neg h]

lemma save_order_fst (df : List Order) (n p e : String) (a : ℚ) (d dt : String) :
    (save_order df n p e a d dt).1
      = df ++ [⟨tableMaxId df + 1, dt, n,
          (if p = "" then p else ⟨p.data.filter Char.isDigit⟩), e,
          "Pending", "Unpaid", a, d⟩] := by
  show df ++ [(⟨(if df.isEmpty then (1 : ℤ) else tableMaxId df + 1), dt, n,
      (if p = "" then p else ⟨p.data.filter Char.isDigit⟩), e,
      "Pending", "Unpaid", a, d⟩ : Order)] = _
  rw [save_order_new_id]

lemma save_order_snd (df : List Order) (n p e : String) (a : ℚ) (d dt : String) :
    (save_order df n p e a d dt).2 = tableMaxId df + 1 := by
  show (if df.isEmpty then (1 : ℤ) else tableMaxId df + 1) = tableMaxId df + 1
  exact save_order_new_id df

lemma save_order_ids (df : List Order) (n p e : String) (a : ℚ) (d dt : String) :
    ((save_order df n p e a d dt).1).map (fun o => o.id)
      = df.map (fun o => o.id) ++ [tableMaxId df + 1] := by
  rw [save_order_fst, List.map_append]
  rfl

lemma createSeq_ids_max (args : ℕ → Submission) :
    ∀ n : ℕ, (createSeq args n).map (fun o => o.id)
        = (List.range n).map (fun k : ℕ => (k : ℤ) + 1)
      ∧ tableMaxId (createSeq args n) = (n : ℤ) := by
  intro n
  induction n with
  | zero => exact ⟨rfl, rfl⟩
  | succ n ih =>
    obtain ⟨hids, hmax⟩ := ih
    have hcons : createSeq args (n + 1)
        = (save_order (createSeq args n) (args n).name (args n).phone (args n).email
            (args n).amount (args n).details (args n).date).1 := rfl
    constructor
    · rw [hcons, save_order_ids, hids, hmax, List.range_succ, List.map_append]
      norm_num
    · cases n with
      | zero =>
        rw [hcons, save_order_fst]
        have h0 : createSeq args 0 = [] := rfl
        rw [h0, List.nil_append]
        norm_num [tableMaxId]
      | succ m =>
        have hne : createSeq args (m + 1) ≠ [] := by
          intro hnil
          have hlen := congrArg List.length hids
          rw [hnil] at hlen
          simp at hlen
        rw [hcons, save_order_fst, tableMaxId_append_singleton _ _ hne, hmax]
        push_cast
        omega

/-- C1: N sequential creates from the empty table allocate exactly the ids
1, …, N; in general each create returns (max existing id, or 0 when the
table is empty) + 1, which exceeds every existing id, so appending it
preserves uniqueness and the non-decreasing order of ids across the
table. -/
theorem save_order_id_allocation :
    (∀ (args : ℕ → Submission) (N : ℕ),
        (createSeq args N).map (fun o => o.id)
          = (List.range N).map (fun k : ℕ => (k : ℤ) + 1))
    ∧ (∀ (df : List Order) (name phone email : String) (amount : ℚ) (details date : String),
        (save_order df name phone email amount details date).2 = tableMaxId df + 1)
    ∧ (∀ (df : List Order) (name phone email : String) (amount : ℚ) (details date : String)
          (r : Order), r ∈ df →
        r.id < (save_order df name phone email amount details date).2)
    ∧ (∀ (df : List Order) (name phone email : String) (amount : ℚ) (details date : String),
        (df.map (fun o => o.id)).Nodup →
          (((save_order df name phone email amount details date).1).map (fun o => o.id)).Nodup)
    ∧ (∀ (df : List Order) (name phone email : String) (amount : ℚ) (details date : String),
        List.Chain' (· ≤ ·) (df.map (fun o => o.id)) →
          List.Chain' (· ≤ ·)
            (((save_order df name phone email amount details date).1).map (fun o => o.id))) := by
  refine ⟨fun args N => (createSeq_ids_max args N).1,
    fun df n p e a d dt => save_order_snd df n p e a d dt, ?_, ?_, ?_⟩
  · intro df n p e a d dt r hr
    rw [save_order_snd]
    exact lt_of_le_of_lt (le_tableMaxId hr) (by omega)
  · intro df n p e a d dt hnd
    rw [save_order_ids, List.nodup_append]
    refine ⟨hnd, List.nodup_singleton _, ?_⟩
    intro x hx hx2
    rw [List.mem_singleton] at hx2
    subst hx2
    obtain ⟨r, hr, hrid⟩ := List.mem_map.mp hx
    have := le_tableMaxId hr
    omega
  · intro df n p e a d dt hch
    rw [save_order_ids, List.chain'_append]
    refine ⟨hch, List.chain'_singleton _, ?_⟩
    intro x hx y hy
    have hy2 : tableMaxId df + 1 = y := by simpa using hy
    have hxmem : x ∈ df.map (fun o => o.id) := List.mem_of_mem_getLast? hx
    obtain ⟨r, hr, hrid⟩ := List.mem_map.mp hxmem
    have hle := le_tableMaxId hr
    show x ≤ y
    omega

/-- Witness for C1: a concrete one-row table with id 5 gets a strictly
larger fresh id, and uniqueness and ordering of the ids survive the
append. -/
theorem save_order_id_allocation_witness :
    ((⟨5, "d", "n", "p", "e", "Pending", "Unpaid", 0, "x"⟩ : Order).id
        < (save_order [⟨5, "d", "n", "p", "e", "Pending", "Unpaid", 0, "x"⟩]
            "n2" "p2" "e2" 0 "x2" "d2").2)
    ∧ (((save_order [⟨5, "d", "n", "p", "e", "Pending", "Unpaid", 0, "x"⟩]
          "n2" "p2" "e2" 0 "x2" "d2").1).map (fun o => o.id)).Nodup
    ∧ List.Chain' (· ≤ ·)
        (((save_order [⟨5, "d", "n", "p", "e", "Pending", "Unpaid", 0, "x"⟩]
          "n2" "p2" "e2" 0 "x2" "d2").1).map (fun o => o.id)) :=
  ⟨save_order_id_allocation.2.2.1 _ "n2" "p2" "e2" 0 "x2" "d2" _ (by decide),
   save_order_id_allocation.2.2.2.1 _ "n2" "p2" "e2" 0 "x2" "d2" (by decide),
   save_order_id_allocation.2.2.2.2 _ "n2" "p2" "e2" 0 "x2" "d2"
     (List.chain'_singleton _)⟩
